import Mathlib

/-!
Verification development for the OpenMemory temporal-fact and vector-search core.

The definitions below are a shallow embedding of the TypeScript source:
* `temporal_graph/query.ts` — the six temporal query functions, translated as
  filter / sort / limit pipelines over a list of fact rows (the SQL relational
  semantics of the queries the code issues; `insertionSort` is stable, so ties
  in an ORDER BY keep table order, one legal determinization of SQL).
* `core/memory.ts` — the ownership-checked fact mutators, `Memory.list`, and
  `Memory.store`.
* `core/vector/pgvector.ts` — `searchSimilar` over a vector table, with the
  pgvector cosine-distance ordering decided exactly over ℚ.
Instants are Int milliseconds, confidences are ℚ, JS-truthiness of optional
string parameters (absent or empty string = not provided) is kept.
-/

structure TemporalFact where
  id : String
  subject : String
  predicate : String
  object : String
  valid_from : Int
  valid_to : Option Int
  confidence : ℚ
  last_updated : Int
  user_id : Option String
  metadata : List (String × String)
deriving DecidableEq, Repr

/-- JS truthiness for an optional string parameter: `if (x)` is taken only when
the parameter is present and non-empty. -/
def optProvided : Option String → Bool
  | none => false
  | some s => !s.isEmpty

/-- The SQL condition pushed for an optional string pattern: no condition when
the parameter is absent or empty, equality otherwise. -/
def strParamMatch : Option String → String → Bool
  | none, _ => true
  | some s, col => s.isEmpty || col == s

/-- The SQL condition `user_id = ?`, pushed only when the user parameter is
provided; a NULL stored user_id never equals a provided user. -/
def userParamMatch : Option String → Option String → Bool
  | none, _ => true
  | some s, col => s.isEmpty || col == some s

/-- The as-of condition of query.ts:
`valid_from <= t AND (valid_to IS NULL OR valid_to >= t)`. -/
def asOfCond (t : Int) (f : TemporalFact) : Bool :=
  decide (f.valid_from ≤ t) &&
    (match f.valid_to with
      | none => true
      | some vt => decide (t ≤ vt))

/-- The confidence condition: pushed only when `min_confidence > 0`. -/
def confCond (min_confidence : ℚ) (f : TemporalFact) : Bool :=
  if 0 < min_confidence then decide (min_confidence ≤ f.confidence) else true

/-- ORDER BY confidence DESC, valid_from DESC. -/
def confVfDesc (f g : TemporalFact) : Prop :=
  g.confidence < f.confidence ∨
    (f.confidence = g.confidence ∧ g.valid_from ≤ f.valid_from)

instance : DecidableRel confVfDesc := fun f g => by
  unfold confVfDesc; infer_instance

/-- ORDER BY valid_from DESC. -/
def vfDesc (f g : TemporalFact) : Prop :=
  g.valid_from ≤ f.valid_from

instance : DecidableRel vfDesc := fun f g => by
  unfold vfDesc; infer_instance

/-- ORDER BY confidence DESC. -/
def confDesc (f g : TemporalFact) : Prop :=
  g.confidence ≤ f.confidence

instance : DecidableRel confDesc := fun f g => by
  unfold confDesc; infer_instance

/-- ORDER BY predicate ASC, valid_from DESC. -/
def predAscVfDesc (f g : TemporalFact) : Prop :=
  f.predicate < g.predicate ∨
    (f.predicate = g.predicate ∧ g.valid_from ≤ f.valid_from)

instance : DecidableRel predAscVfDesc := fun f g => by
  unfold predAscVfDesc; infer_instance

/-- ORDER BY predicate ASC, confidence DESC. -/
def predAscConfDesc (f g : TemporalFact) : Prop :=
  f.predicate < g.predicate ∨
    (f.predicate = g.predicate ∧ g.confidence ≤ f.confidence)

instance : DecidableRel predAscConfDesc := fun f g => by
  unfold predAscConfDesc; infer_instance

/-- query.ts `query_facts_at_time`: as-of filter, optional user / subject /
predicate / object equality, confidence threshold; ordered by
(confidence desc, valid_from desc). -/
def query_facts_at_time (subject predicate object : Option String) (t : Int)
    (min_confidence : ℚ) (user_id : Option String) (store : List TemporalFact) :
    List TemporalFact :=
  (store.filter (fun f =>
      asOfCond t f
      && userParamMatch user_id f.user_id
      && strParamMatch subject f.subject
      && strParamMatch predicate f.predicate
      && strParamMatch object f.object
      && confCond min_confidence f)).insertionSort confVfDesc

/-- query.ts `get_current_fact`: subject and predicate equality, `valid_to IS
NULL`, optional user; ORDER BY valid_from DESC LIMIT 1. -/
def get_current_fact (subject predicate : String) (user_id : Option String)
    (store : List TemporalFact) : Option TemporalFact :=
  ((store.filter (fun f =>
      f.subject == subject && f.predicate == predicate && f.valid_to == none
        && userParamMatch user_id f.user_id)).insertionSort vfDesc).head?

/-- The time condition of query.ts `query_facts_in_range`: with both bounds,
`(valid_from <= to AND (valid_to IS NULL OR valid_to >= from)) OR
(valid_from >= from AND valid_from <= to)`; with only `from`,
`valid_from >= from`; with only `to`, `valid_from <= to`; else no condition. -/
def rangeTimeCond (fromT toT : Option Int) (f : TemporalFact) : Bool :=
  match fromT, toT with
  | some lo, some hi =>
      (decide (f.valid_from ≤ hi) &&
        (match f.valid_to with
          | none => true
          | some vt => decide (lo ≤ vt)))
      || (decide (lo ≤ f.valid_from) && decide (f.valid_from ≤ hi))
  | some lo, none => decide (lo ≤ f.valid_from)
  | none, some hi => decide (f.valid_from ≤ hi)
  | none, none => true

/-- query.ts `query_facts_in_range`: range time condition, optional user /
subject / predicate equality, confidence threshold; ORDER BY valid_from DESC.
There is no object filter in this query. -/
def query_facts_in_range (subject predicate : Option String) (fromT toT : Option Int)
    (min_confidence : ℚ) (user_id : Option String) (store : List TemporalFact) :
    List TemporalFact :=
  (store.filter (fun f =>
      rangeTimeCond fromT toT f
      && userParamMatch user_id f.user_id
      && strParamMatch subject f.subject
      && strParamMatch predicate f.predicate
      && confCond min_confidence f)).insertionSort vfDesc

/-- query.ts `find_conflicting_facts`: subject and predicate equality, as-of
condition, optional user; ORDER BY confidence DESC. -/
def find_conflicting_facts (subject predicate : String) (t : Int)
    (user_id : Option String) (store : List TemporalFact) : List TemporalFact :=
  (store.filter (fun f =>
      f.subject == subject && f.predicate == predicate && asOfCond t f
        && userParamMatch user_id f.user_id)).insertionSort confDesc

/-- query.ts `get_facts_by_subject`: historical mode drops the time condition
and sorts by (predicate asc, valid_from desc); otherwise as-of condition and
(predicate asc, confidence desc). -/
def get_facts_by_subject (subject : String) (t : Int) (include_historical : Bool)
    (user_id : Option String) (store : List TemporalFact) : List TemporalFact :=
  if include_historical then
    (store.filter (fun f =>
        f.subject == subject && userParamMatch user_id f.user_id)).insertionSort predAscVfDesc
  else
    (store.filter (fun f =>
        f.subject == subject && asOfCond t f
          && userParamMatch user_id f.user_id)).insertionSort predAscConfDesc

inductive SearchField where
  | subject
  | predicate
  | object
deriving DecidableEq, Repr

def fieldOf : SearchField → TemporalFact → String
  | .subject, f => f.subject
  | .predicate, f => f.predicate
  | .object, f => f.object

/-- SQL `LIKE` matching (no ESCAPE clause): `%` matches any sequence of
characters, `_` matches any single character, other characters match
themselves; case-sensitive. -/
def likeMatch : List Char → List Char → Bool
  | [], [] => true
  | [], _ :: _ => false
  | '%' :: ps, s =>
      likeMatch ps s ||
        (match s with
          | [] => false
          | _ :: s2 => likeMatch ('%' :: ps) s2)
  | '_' :: ps, _ :: s => likeMatch ps s
  | p :: ps, c :: s => (p == c) && likeMatch ps s
  | _ :: _, [] => false
termination_by p s => (s.length, p.length)

/-- query.ts `search_facts`: `field LIKE` with the pattern wrapped in percent signs, as-of condition,
optional user; ORDER BY confidence DESC, valid_from DESC LIMIT 100. -/
def search_facts (pattern : String) (field : SearchField) (t : Int)
    (user_id : Option String) (store : List TemporalFact) : List TemporalFact :=
  ((store.filter (fun f =>
      likeMatch ('%' :: (pattern.toList ++ ['%'])) (fieldOf field f).toList
      && asOfCond t f
      && userParamMatch user_id f.user_id)).insertionSort confVfDesc).take 100

/-- Modelled from the spec: `insert_fact` lives in src/temporal_graph/store.ts,
which is not in the source tree. Spec 4.5: "auto-closes any prior
currently-open fact for the same (user, s, p) by setting its valid_to to the
new valid_from; then inserts new open fact". The fresh id is passed in
explicitly; last_updated is set to the insertion instant. -/
def insert_fact (newId subject predicate object : String) (valid_from : Int)
    (confidence : ℚ) (metadata : List (String × String)) (user_id : Option String)
    (store : List TemporalFact) : List TemporalFact :=
  (store.map (fun f =>
    if f.user_id == user_id && f.subject == subject && f.predicate == predicate
        && f.valid_to == none
    then { f with valid_to := some valid_from }
    else f))
  ++ [{ id := newId, subject := subject, predicate := predicate, object := object,
        valid_from := valid_from, valid_to := none, confidence := confidence,
        last_updated := valid_from, user_id := user_id, metadata := metadata }]

structure FactInput where
  subject : String
  predicate : String
  object : String
  valid_from : Int
  confidence : ℚ
  metadata : List (String × String)
  user_id : Option String
deriving DecidableEq, Repr

/-- Modelled from the spec: `batch_insert_facts` (src/temporal_graph/store.ts,
not in the source tree). Spec 4.5: an atomic batch of single inserts; fresh ids
are supplied positionally. -/
def batch_insert_facts (ids : List String) (facts : List FactInput)
    (store : List TemporalFact) : List TemporalFact :=
  match ids, facts with
  | i :: is2, f :: fs =>
      batch_insert_facts is2 fs
        (insert_fact i f.subject f.predicate f.object f.valid_from f.confidence
          f.metadata f.user_id store)
  | _, _ => store

/-- Modelled from the spec: `update_fact` (src/temporal_graph/store.ts, not in
the source tree). Spec 4.5: "update mutates only confidence and/or metadata". -/
def update_fact (id : String) (conf : Option ℚ) (meta : Option (List (String × String)))
    (store : List TemporalFact) : List TemporalFact :=
  store.map (fun f =>
    if f.id == id then
      { f with confidence := conf.getD f.confidence, metadata := meta.getD f.metadata }
    else f)

/-- Modelled from the spec: `invalidate_fact` (src/temporal_graph/store.ts, not
in the source tree). Spec 4.5: "Invalidate sets valid_to (default now)". -/
def invalidate_fact (id : String) (valid_to : Int) (store : List TemporalFact) :
    List TemporalFact :=
  store.map (fun f => if f.id == id then { f with valid_to := some valid_to } else f)

/-- Modelled from the spec: `delete_fact` (src/temporal_graph/store.ts, not in
the source tree). Spec 4.5: "Delete is irreversible" row removal. -/
def delete_fact (id : String) (store : List TemporalFact) : List TemporalFact :=
  store.filter (fun f => !(f.id == id))

/-- memory.ts ownership validation shared by updateFact / invalidateFact /
deleteFact: `SELECT user_id FROM temporal_facts WHERE id = ?`; no row throws
"Fact id not found", a row whose user_id differs from the scope throws
"Fact id not found for user uid". Returns the thrown message, if any. -/
def ownershipError (id uid : String) (store : List TemporalFact) : Option String :=
  match store.find? (fun f => f.id == id) with
  | none => some ("Fact " ++ id ++ " not found")
  | some f =>
      if f.user_id == some uid then none
      else some ("Fact " ++ id ++ " not found for user " ++ uid)

/-- memory.ts `Memory.updateFact`: ownership check when a user scope is
provided (JS truthiness), then the store-level update. -/
def Memory.updateFact (id : String) (conf : Option ℚ)
    (meta : Option (List (String × String))) (uid : Option String)
    (store : List TemporalFact) : Except String (List TemporalFact) :=
  match uid with
  | some u =>
      if u.isEmpty then .ok (update_fact id conf meta store)
      else
        match ownershipError id u store with
        | some e => .error e
        | none => .ok (update_fact id conf meta store)
  | none => .ok (update_fact id conf meta store)

/-- memory.ts `Memory.invalidateFact`: ownership check when a user scope is
provided, then the store-level invalidate. -/
def Memory.invalidateFact (id : String) (valid_to : Int) (uid : Option String)
    (store : List TemporalFact) : Except String (List TemporalFact) :=
  match uid with
  | some u =>
      if u.isEmpty then .ok (invalidate_fact id valid_to store)
      else
        match ownershipError id u store with
        | some e => .error e
        | none => .ok (invalidate_fact id valid_to store)
  | none => .ok (invalidate_fact id valid_to store)

/-- memory.ts `Memory.deleteFact`: ownership check when a user scope is
provided, then the store-level delete. -/
def Memory.deleteFact (id : String) (uid : Option String)
    (store : List TemporalFact) : Except String (List TemporalFact) :=
  match uid with
  | some u =>
      if u.isEmpty then .ok (delete_fact id store)
      else
        match ownershipError id u store with
        | some e => .error e
        | none => .ok (delete_fact id store)
  | none => .ok (delete_fact id store)

structure MemRow where
  id : String
  user_id : Option String
  content : String
  primary_sector : String
  sectors : List String
  tags : List String
  metadata : List (String × String)
deriving DecidableEq, Repr

/-- Modelled from the spec: `add_hsg_memory` (src/memory/hsg.ts, not in the
source tree). Spec 4.4: insert classifies the content into sectors and
persists a memory row; the fresh id and the classifier output are abstracted
as parameters. Returns (id, primary sector, sectors) and the updated table. -/
def add_hsg_memory (newId primary : String) (secondary : List String)
    (content : String) (tags : List String) (metadata : List (String × String))
    (user_id : Option String) (hsg : List MemRow) :
    (String × String × List String) × List MemRow :=
  ((newId, primary, secondary),
   hsg ++ [{ id := newId, user_id := user_id, content := content,
             primary_sector := primary, sectors := secondary, tags := tags,
             metadata := metadata }])

/-- Modelled from the spec: prepared statement q.all_mem_by_user (src/core/db.ts,
not in the source tree); a limit/offset page over the memory rows of the user in
stored order (spec section 6: list returns a page of memory rows). -/
def all_mem_by_user (uid : String) (limit offset : Nat) (hsg : List MemRow) :
    List MemRow :=
  ((hsg.filter (fun m => m.user_id == some uid)).drop offset).take limit

/-- Modelled from the spec: prepared statement q.all_mem_by_sector
(src/core/db.ts, not in the source tree); a limit/offset page over the rows
with the given primary sector, in stored order. -/
def all_mem_by_sector (sector : String) (limit offset : Nat) (hsg : List MemRow) :
    List MemRow :=
  ((hsg.filter (fun m => m.primary_sector == sector)).drop offset).take limit

/-- Modelled from the spec: prepared statement q.all_mem (src/core/db.ts, not
in the source tree); a limit/offset page over all memory rows in stored order. -/
def all_mem (limit offset : Nat) (hsg : List MemRow) : List MemRow :=
  (hsg.drop offset).take limit

/-- memory.ts `Memory.list`: with a user id, fetch the page of that user and only
then apply the in-process primary_sector filter; without one, the sector
filter is part of the paged query. -/
def Memory.list (uid : Option String) (limit offset : Nat) (sector : Option String)
    (hsg : List MemRow) : List MemRow :=
  if optProvided uid then
    let page := all_mem_by_user (uid.getD "") limit offset hsg
    if optProvided sector then
      page.filter (fun m => m.primary_sector == sector.getD "")
    else page
  else
    if optProvided sector then all_mem_by_sector (sector.getD "") limit offset hsg
    else all_mem limit offset hsg

inductive StoreType where
  | contextual
  | factual
  | both
deriving DecidableEq, Repr

def storeTypeName : StoreType → String
  | .contextual => "contextual"
  | .factual => "factual"
  | .both => "both"

structure StoreFactSpec where
  subject : String
  predicate : String
  object : String
  confidence : Option ℚ
  valid_from : Option Int
deriving DecidableEq, Repr

structure SystemState where
  hsg : List MemRow
  facts : List TemporalFact
deriving DecidableEq, Repr

/-- JS object key assignment `meta[k] = v` on a string-keyed metadata map. -/
def setKey (k v : String) (meta : List (String × String)) : List (String × String) :=
  (k, v) :: meta.filter (fun p => !(p.1 == k))

def lookupKey (k : String) (meta : List (String × String)) : Option String :=
  (meta.find? (fun p => p.1 == k)).map (fun p => p.2)

/-- memory.ts `Memory.store`: validation, HSG insert for contextual/both, then
the temporal batch insert for factual/both; for type both the fact metadata is
augmented with source_memory_id = the new HSG memory id. The fresh ids,
classifier output and the current instant are abstracted as parameters. -/
def Memory.store (content : String) (ty : StoreType) (factSpecs : List StoreFactSpec)
    (tags : List String) (metadata : List (String × String)) (uid : Option String)
    (now : Int) (newMemId primary : String) (secondary : List String)
    (factIds : List String) (st : SystemState) :
    Except String (SystemState × Option String) :=
  if ty == .factual && factSpecs.isEmpty then
    .error "Facts array is required when type is factual"
  else if (ty == .contextual || ty == .both) && content.isEmpty then
    .error ("Content is required when type is " ++ storeTypeName ty)
  else
    let hsgStep : Option String × List MemRow :=
      if ty == .contextual || ty == .both then
        let r := add_hsg_memory newMemId primary secondary content tags metadata uid st.hsg
        (some r.1.1, r.2)
      else (none, st.hsg)
    let facts2 :=
      if ty == .factual || ty == .both then
        let meta :=
          match ty, hsgStep.1 with
          | .both, some hid => setKey "source_memory_id" hid metadata
          | _, _ => metadata
        let inputs := factSpecs.map (fun f =>
          { subject := f.subject, predicate := f.predicate, object := f.object,
            valid_from := f.valid_from.getD now, confidence := f.confidence.getD 1,
            metadata := meta, user_id := uid : FactInput })
        batch_insert_facts factIds inputs st.facts
      else st.facts
    .ok ({ hsg := hsgStep.2, facts := facts2 }, hsgStep.1)

structure VectorRow where
  id : String
  sector : String
  user_id : String
  v : List ℚ
  dim : Nat
deriving DecidableEq, Repr

def dotQ : List ℚ → List ℚ → ℚ
  | x :: xs, y :: ys => x * y + dotQ xs ys
  | _, _ => 0

/-- Exact decision of "a / sqrt A >= b / sqrt B" for A, B >= 0, with x / sqrt 0
read as 0 (the division-by-zero convention of the logic): compare signs first, then
squares. Used to order vector rows by the pgvector cosine-distance operator
without leaving ℚ. -/
def simGe (a A b B : ℚ) : Bool :=
  let sx : Int := if A == 0 || a == 0 then 0 else if decide (0 < a) then 1 else -1
  let sy : Int := if B == 0 || b == 0 then 0 else if decide (0 < b) then 1 else -1
  if decide (sy < sx) then true
  else if decide (sx < sy) then false
  else if sx == 0 then true
  else if sx == 1 then decide (b ^ 2 * A ≤ a ^ 2 * B)
  else decide (a ^ 2 * B ≤ b ^ 2 * A)

/-- Row comparator for `ORDER BY v <=> $1` (cosine distance ascending, i.e.
cosine similarity descending), decided exactly over ℚ. -/
def distLe (queryVec : List ℚ) (r s : VectorRow) : Prop :=
  simGe (dotQ r.v queryVec) (dotQ r.v r.v) (dotQ s.v queryVec) (dotQ s.v s.v) = true

instance (queryVec : List ℚ) : DecidableRel (distLe queryVec) := fun r s => by
  unfold distLe; infer_instance

/-- pgvector.ts `searchSimilar`, row part: WHERE sector = ? (AND user_id = ?
when a user id is provided), ORDER BY v <=> query ASC, LIMIT topK. -/
def searchSimilarRows (table : List VectorRow) (sector : String)
    (queryVec : List ℚ) (topK : Nat) (user_id : Option String) : List VectorRow :=
  let base :=
    if optProvided user_id then
      table.filter (fun r => r.sector == sector && r.user_id == user_id.getD "")
    else
      table.filter (fun r => r.sector == sector)
  (base.insertionSort (distLe queryVec)).take topK

noncomputable def cosineSimilarity (u v : List ℚ) : ℝ :=
  (dotQ u v : ℝ) / (Real.sqrt (dotQ u u) * Real.sqrt (dotQ v v))

/-- The pgvector `<=>` operator: cosine distance. -/
noncomputable def cosineDistance (u v : List ℚ) : ℝ := 1 - cosineSimilarity u v

/-- pgvector.ts `searchSimilar`: each returned row carries
`score = 1 - (v <=> query)`. -/
noncomputable def searchSimilar (table : List VectorRow) (sector : String)
    (queryVec : List ℚ) (topK : Nat) (user_id : Option String) :
    List (String × ℝ) :=
  (searchSimilarRows table sector queryVec topK user_id).map
    (fun r => (r.id, 1 - cosineDistance r.v queryVec))

/-- The behaviour claim C8 attributes to `searchSimilar`, following the spec
text for backend B: ask the index for topK * F globally nearest neighbors,
then apply the (sector, user) post-filter and return at most topK. Written
from the spec for a refinement comparison with `searchSimilarRows`. -/
def searchSimilarOverfetchRows (table : List VectorRow) (sector : String)
    (queryVec : List ℚ) (topK overfetchFactor : Nat) (user_id : Option String) :
    List VectorRow :=
  let neighbors := (table.insertionSort (distLe queryVec)).take (topK * overfetchFactor)
  (neighbors.filter (fun r => r.sector == sector &&
    (match user_id with
      | some u => r.user_id == u
      | none => true))).take topK

/-- The range condition exactly as claim C4 states it: the validity interval of the fact
overlaps [from, to], or valid_from lies inside [from, to]; an omitted
bound is unbounded. Claim-side definition, for comparison with the
`rangeTimeCond` the code implements. -/
def specRangeCond (fromT toT : Option Int) (f : TemporalFact) : Bool :=
  ((match toT with
      | none => true
      | some hi => decide (f.valid_from ≤ hi))
    && (match fromT with
        | none => true
        | some lo =>
            match f.valid_to with
            | none => true
            | some vt => decide (lo ≤ vt)))
  || ((match fromT with
        | none => true
        | some lo => decide (lo ≤ f.valid_from))
      && (match toT with
          | none => true
          | some hi => decide (f.valid_from ≤ hi)))

/-- A fact whose valid_to equals the query instant (10). -/
def boundaryFact : TemporalFact :=
  { id := "f1", subject := "s", predicate := "p", object := "o", valid_from := 0,
    valid_to := some 10, confidence := 1, last_updated := 0, user_id := none,
    metadata := [] }

/-- Scenario S2: Acme inserted at 1000, then Globex at 2000 auto-closes it. -/
def s2Store : List TemporalFact :=
  insert_fact "f_globex" "alice" "works_at" "Globex" 2000 1 [] (some "alice")
    (insert_fact "f_acme" "alice" "works_at" "Acme" 1000 1 [] (some "alice") [])

/-- The Acme fact after the auto-close of scenario S2. -/
def s2AcmeClosed : TemporalFact :=
  { id := "f_acme", subject := "alice", predicate := "works_at", object := "Acme",
    valid_from := 1000, valid_to := some 2000, confidence := 1, last_updated := 1000,
    user_id := some "alice", metadata := [] }

def c2AliceFact : TemporalFact :=
  { id := "fa", subject := "alice", predicate := "likes", object := "python",
    valid_from := 0, valid_to := none, confidence := 1, last_updated := 0,
    user_id := some "alice", metadata := [] }

def c2BobFact : TemporalFact :=
  { id := "fb", subject := "bob", predicate := "likes", object := "rust",
    valid_from := 0, valid_to := none, confidence := 1, last_updated := 0,
    user_id := some "bob", metadata := [] }

/-- A fact owned by bob, used for the ownership-mismatch scenarios. -/
def bobOwnedFact : TemporalFact :=
  { id := "f1", subject := "bob", predicate := "works_at", object := "Acme",
    valid_from := 0, valid_to := none, confidence := 1, last_updated := 0,
    user_id := some "bob", metadata := [] }

/-- A fact valid on [0, 20], so it overlaps [10, +inf). -/
def overlapFact : TemporalFact :=
  { id := "f1", subject := "s", predicate := "p", object := "o", valid_from := 0,
    valid_to := some 20, confidence := 1, last_updated := 0, user_id := none,
    metadata := [] }

/-- An open fact whose valid_from (100) lies in the future of instant 0. -/
def futureFact : TemporalFact :=
  { id := "f1", subject := "s", predicate := "p", object := "o",
    valid_from := 100, valid_to := none, confidence := 1, last_updated := 0,
    user_id := none, metadata := [] }

/-- A fact whose subject "Z" contains no literal underscore. -/
def zFact : TemporalFact :=
  { id := "f1", subject := "Z", predicate := "p", object := "o", valid_from := 0,
    valid_to := none, confidence := 1, last_updated := 0, user_id := none,
    metadata := [] }

def rowB1 : VectorRow := { id := "b1", sector := "s", user_id := "bob", v := [1], dim := 1 }
def rowB2 : VectorRow := { id := "b2", sector := "s", user_id := "bob", v := [1], dim := 1 }
def rowB3 : VectorRow := { id := "b3", sector := "s", user_id := "bob", v := [1], dim := 1 }
def rowA1 : VectorRow := { id := "a1", sector := "s", user_id := "alice", v := [-1], dim := 1 }

/-- Vector table where three bob rows are strictly nearer the query [1] than
the single alice row. -/
def c8Table : List VectorRow := [rowB1, rowB2, rowB3, rowA1]

def memRowSem : MemRow :=
  { id := "m1", user_id := some "alice", content := "c1", primary_sector := "semantic",
    sectors := ["semantic"], tags := [], metadata := [] }

def memRowEpi : MemRow :=
  { id := "m2", user_id := some "alice", content := "c2", primary_sector := "episodic",
    sectors := ["episodic"], tags := [], metadata := [] }

/-- Two alice memories; the first page (limit 1) holds only the semantic one. -/
def c10Store : List MemRow := [memRowSem, memRowEpi]

theorem mem_sortFilter {α : Type} {r : α → α → Prop} [DecidableRel r]
    {p : α → Bool} {l : List α} {a : α} :
    a ∈ (l.filter p).insertionSort r ↔ a ∈ l ∧ p a = true := by
  rw [(List.perm_insertionSort r (l.filter p)).mem_iff, List.mem_filter]

theorem mem_of_head?_eq_some {α : Type} {l : List α} {a : α}
    (h : l.head? = some a) : a ∈ l := by
  cases l with
  | nil => simp at h
  | cons b t =>
      simp only [List.head?_cons, Option.some.injEq] at h
      exact h ▸ List.mem_cons_self b t

theorem filter_restrict {α : Type} (C U : α → Bool)
    (h : ∀ a, C a = true → U a = true) (l : List α) :
    l.filter C = (l.filter U).filter C := by
  induction l with
  | nil => rfl
  | cons a t ih =>
      by_cases hC : C a = true
      · simp [List.filter_cons, hC, h a hC, ih]
      · have hC2 : C a = false := by simpa using hC
        cases hU : U a <;> simp [List.filter_cons, hC2, hU, ih]

theorem isEmpty_false_of_ne {u : String} (hu : u ≠ "") : u.isEmpty = false := by
  cases h : u.isEmpty
  · rfl
  · exact absurd ((String.isEmpty_iff u).mp h) hu

theorem userParamMatch_some_eq {u : String} (hu : u ≠ "") {x : Option String}
    (h : userParamMatch (some u) x = true) : x = some u := by
  simp only [userParamMatch, isEmpty_false_of_ne hu, Bool.false_or, beq_iff_eq] at h
  exact h

theorem userParamMatch_some_beq {u : String} (hu : u ≠ "") {x : Option String}
    (h : userParamMatch (some u) x = true) : (x == some u) = true := by
  simpa using userParamMatch_some_eq hu h

theorem asOfCond_iff {t : Int} {f : TemporalFact} :
    asOfCond t f = true ↔
      f.valid_from ≤ t ∧ ∀ vt, f.valid_to = some vt → t ≤ vt := by
  unfold asOfCond
  cases h : f.valid_to <;> simp [h]

theorem confCond_iff {minc : ℚ} {f : TemporalFact} :
    confCond minc f = true ↔ (0 < minc → minc ≤ f.confidence) := by
  unfold confCond
  by_cases h : 0 < minc <;> simp [h]

instance : IsTrans TemporalFact vfDesc :=
  ⟨fun _ _ _ hab hbc => le_trans hbc hab⟩

instance : IsTotal TemporalFact vfDesc :=
  ⟨fun a b => le_total b.valid_from a.valid_from⟩

instance : IsTrans TemporalFact confVfDesc := by
  constructor
  intro a b c hab hbc
  rcases hab with h1 | ⟨h1e, h1v⟩ <;> rcases hbc with h2 | ⟨h2e, h2v⟩
  · exact Or.inl (lt_trans h2 h1)
  · exact Or.inl (by rw [← h2e]; exact h1)
  · exact Or.inl (by rw [h1e]; exact h2)
  · exact Or.inr ⟨h1e.trans h2e, le_trans h2v h1v⟩

instance : IsTotal TemporalFact confVfDesc := by
  constructor
  intro a b
  rcases lt_trichotomy a.confidence b.confidence with h | h | h
  · exact Or.inr (Or.inl h)
  · rcases le_total a.valid_from b.valid_from with hv | hv
    · exact Or.inr (Or.inr ⟨h.symm, hv⟩)
    · exact Or.inl (Or.inr ⟨h, hv⟩)
  · exact Or.inl (Or.inl h)

/-- C1 (amended): the as-of query returns a stored fact F exactly when
valid_from <= t AND t <= valid_to with a null valid_to acting as +infinity —
a closed interval, so a fact whose valid_to equals t IS returned — and F
matches the provided subject/predicate/object patterns (omitted or empty
patterns act as wildcards), the confidence threshold (enforced only when
positive), and the user scope. -/
theorem at_time_mem_closed_interval (subject predicate object : Option String)
    (t : Int) (minc : ℚ) (user_id : Option String) (store : List TemporalFact)
    (f : TemporalFact) :
    f ∈ query_facts_at_time subject predicate object t minc user_id store ↔
      f ∈ store
      ∧ f.valid_from ≤ t
      ∧ (∀ vt, f.valid_to = some vt → t ≤ vt)
      ∧ userParamMatch user_id f.user_id = true
      ∧ strParamMatch subject f.subject = true
      ∧ strParamMatch predicate f.predicate = true
      ∧ strParamMatch object f.object = true
      ∧ (0 < minc → minc ≤ f.confidence) := by
  unfold query_facts_at_time
  rw [mem_sortFilter]
  simp only [Bool.and_eq_true, asOfCond_iff, confCond_iff, and_assoc]

/-- C1 is false as stated: the interval used by the code is closed on the right. The
boundary fact has valid_to = 10 and is returned by the as-of query at t = 10
even though 10 < 10 fails; likewise in scenario S2 the auto-closed Acme fact
(valid_to = the Globex valid_from) is still returned at that very instant,
together with the Globex fact. -/
theorem at_time_returns_right_boundary :
    query_facts_at_time none none none 10 0 none [boundaryFact] = [boundaryFact]
    ∧ ¬ ((10 : Int) < 10)
    ∧ s2AcmeClosed ∈ query_facts_at_time (some "alice") (some "works_at") none
        2000 0 none s2Store := by
  refine ⟨by decide, by decide, by decide⟩

/-- Witness for the amended C1 theorem at a concrete input. -/
theorem at_time_mem_closed_interval_witness :
    boundaryFact ∈ query_facts_at_time none none none 10 0 none [boundaryFact] :=
  (at_time_mem_closed_interval none none none 10 0 none [boundaryFact]
      boundaryFact).mpr
    ⟨by decide, by decide,
     fun vt h => by
       simp only [boundaryFact, Option.some.injEq] at h
       omega,
     by decide, by decide, by decide, by decide, fun h => by decide⟩

/-- C2: with a (non-empty) user scope u, every fact returned by any of the six
temporal query operations has user_id = u, and two stores whose u-owned rows
agree produce identical results for each u-scoped query, so facts of one user
never influence or appear in the results of another user. -/
theorem temporal_queries_user_scoped
    (u : String) (store store1 store2 : List TemporalFact)
    (subject predicate object : Option String) (t : Int) (minc : ℚ)
    (fromT toT : Option Int) (s p pat : String) (field : SearchField)
    (includeHist : Bool)
    (hu : u ≠ "")
    (hres : store1.filter (fun f => f.user_id == some u)
          = store2.filter (fun f => f.user_id == some u)) :
    (∀ f ∈ query_facts_at_time subject predicate object t minc (some u) store,
        f.user_id = some u)
    ∧ (∀ f, get_current_fact s p (some u) store = some f → f.user_id = some u)
    ∧ (∀ f ∈ query_facts_in_range subject predicate fromT toT minc (some u) store,
        f.user_id = some u)
    ∧ (∀ f ∈ find_conflicting_facts s p t (some u) store, f.user_id = some u)
    ∧ (∀ f ∈ get_facts_by_subject s t includeHist (some u) store, f.user_id = some u)
    ∧ (∀ f ∈ search_facts pat field t (some u) store, f.user_id = some u)
    ∧ query_facts_at_time subject predicate object t minc (some u) store1
      = query_facts_at_time subject predicate object t minc (some u) store2
    ∧ get_current_fact s p (some u) store1 = get_current_fact s p (some u) store2
    ∧ query_facts_in_range subject predicate fromT toT minc (some u) store1
      = query_facts_in_range subject predicate fromT toT minc (some u) store2
    ∧ find_conflicting_facts s p t (some u) store1
      = find_conflicting_facts s p t (some u) store2
    ∧ get_facts_by_subject s t includeHist (some u) store1
      = get_facts_by_subject s t includeHist (some u) store2
    ∧ search_facts pat field t (some u) store1 = search_facts pat field t (some u) store2 := by
  have hU : ∀ (C : TemporalFact → Bool),
      (∀ f, C f = true → (f.user_id == some u) = true) →
      ∀ l1 l2 : List TemporalFact,
        l1.filter (fun f => f.user_id == some u) = l2.filter (fun f => f.user_id == some u) →
        l1.filter C = l2.filter C := by
    intro C hC l1 l2 hl
    rw [filter_restrict C (fun f => f.user_id == some u) hC l1,
        filter_restrict C (fun f => f.user_id == some u) hC l2, hl]
  refine ⟨?_, ?_, ?_, ?_, ?_, ?_, ?_, ?_, ?_, ?_, ?_, ?_⟩
  · intro f hf
    rw [query_facts_at_time, mem_sortFilter] at hf
    simp only [Bool.and_eq_true] at hf
    exact userParamMatch_some_eq hu hf.2.1.1.1.1.2
  · intro f hf
    have hm := mem_of_head?_eq_some hf
    rw [mem_sortFilter] at hm
    simp only [Bool.and_eq_true] at hm
    exact userParamMatch_some_eq hu hm.2.2
  · intro f hf
    rw [query_facts_in_range, mem_sortFilter] at hf
    simp only [Bool.and_eq_true] at hf
    exact userParamMatch_some_eq hu hf.2.1.1.1.2
  · intro f hf
    rw [find_conflicting_facts, mem_sortFilter] at hf
    simp only [Bool.and_eq_true] at hf
    exact userParamMatch_some_eq hu hf.2.2
  · intro f hf
    rw [get_facts_by_subject] at hf
    cases includeHist with
    | true =>
        rw [if_pos rfl, mem_sortFilter] at hf
        simp only [Bool.and_eq_true] at hf
        exact userParamMatch_some_eq hu hf.2.2
    | false =>
        rw [if_neg (by simp), mem_sortFilter] at hf
        simp only [Bool.and_eq_true] at hf
        exact userParamMatch_some_eq hu hf.2.2
  · intro f hf
    rw [search_facts] at hf
    have hm := List.mem_of_mem_take hf
    rw [mem_sortFilter] at hm
    simp only [Bool.and_eq_true] at hm
    exact userParamMatch_some_eq hu hm.2.2
  · rw [query_facts_at_time, query_facts_at_time]
    exact congrArg _ (hU _ (fun f hf => by
      simp only [Bool.and_eq_true] at hf
      exact userParamMatch_some_beq hu hf.1.1.1.1.2) store1 store2 hres)
  · rw [get_current_fact, get_current_fact]
    exact congrArg _ (congrArg _ (hU _ (fun f hf => by
      simp only [Bool.and_eq_true] at hf
      exact userParamMatch_some_beq hu hf.2) store1 store2 hres))
  · rw [query_facts_in_range, query_facts_in_range]
    exact congrArg _ (hU _ (fun f hf => by
      simp only [Bool.and_eq_true] at hf
      exact userParamMatch_some_beq hu hf.1.1.1.2) store1 store2 hres)
  · rw [find_conflicting_facts, find_conflicting_facts]
    exact congrArg _ (hU _ (fun f hf => by
      simp only [Bool.and_eq_true] at hf
      exact userParamMatch_some_beq hu hf.2) store1 store2 hres)
  · rw [get_facts_by_subject, get_facts_by_subject]
    cases includeHist with
    | true =>
        rw [if_pos rfl, if_pos rfl]
        exact congrArg _ (hU _ (fun f hf => by
          simp only [Bool.and_eq_true] at hf
          exact userParamMatch_some_beq hu hf.2) store1 store2 hres)
    | false =>
        rw [if_neg (by simp), if_neg (by simp)]
        exact congrArg _ (hU _ (fun f hf => by
          simp only [Bool.and_eq_true] at hf
          exact userParamMatch_some_beq hu hf.2) store1 store2 hres)
  · rw [search_facts, search_facts]
    exact congrArg _ (congrArg _ (hU _ (fun f hf => by
      simp only [Bool.and_eq_true] at hf
      exact userParamMatch_some_beq hu hf.2) store1 store2 hres))

/-- Witness for C2 at a concrete input: with the bob fact present or absent, the
alice-scoped as-of query is unchanged, and the returned alice fact is hers. -/
theorem temporal_queries_user_scoped_witness :
    query_facts_at_time none none none 0 0 (some "alice") [c2AliceFact, c2BobFact]
      = query_facts_at_time none none none 0 0 (some "alice") [c2AliceFact]
    ∧ c2AliceFact.user_id = some "alice" :=
  ⟨(temporal_queries_user_scoped "alice" [] [c2AliceFact, c2BobFact] [c2AliceFact]
      none none none 0 0 none none "s" "p" "q" SearchField.subject false
      (by decide) (by decide)).2.2.2.2.2.2.1,
   (temporal_queries_user_scoped "alice" [c2AliceFact, c2BobFact] [] []
      none none none 0 0 none none "s" "p" "q" SearchField.subject false
      (by decide) rfl).1 c2AliceFact (by decide)⟩

/-- C3 (amended): with a non-empty user scope u, each of updateFact,
invalidateFact and deleteFact on an existing fact owned by someone else fails
without producing a modified store, raising "Fact id not found for user u" —
while a missing id raises the plain "Fact id not found"; the two messages
always differ (their lengths differ), so the failure disclosed to the caller
does reveal that the id exists. -/
theorem ownership_mismatch_fails
    (store : List TemporalFact) (id u : String)
    (conf : Option ℚ) (meta : Option (List (String × String))) (vt : Int)
    (f : TemporalFact)
    (hu : u ≠ "")
    (hfind : store.find? (fun g => g.id == id) = some f)
    (hown : f.user_id ≠ some u) :
    Memory.updateFact id conf meta (some u) store
      = .error ("Fact " ++ id ++ " not found for user " ++ u)
    ∧ Memory.invalidateFact id vt (some u) store
      = .error ("Fact " ++ id ++ " not found for user " ++ u)
    ∧ Memory.deleteFact id (some u) store
      = .error ("Fact " ++ id ++ " not found for user " ++ u)
    ∧ (∀ store2 : List TemporalFact, store2.find? (fun g => g.id == id) = none →
        Memory.updateFact id conf meta (some u) store2
          = .error ("Fact " ++ id ++ " not found")
        ∧ Memory.invalidateFact id vt (some u) store2
          = .error ("Fact " ++ id ++ " not found")
        ∧ Memory.deleteFact id (some u) store2
          = .error ("Fact " ++ id ++ " not found"))
    ∧ ("Fact " ++ id ++ " not found for user " ++ u) ≠ ("Fact " ++ id ++ " not found") := by
  have hie := isEmpty_false_of_ne hu
  have hbeq : (f.user_id == some u) = false := by
    simpa using hown
  have herr : ownershipError id u store
      = some ("Fact " ++ id ++ " not found for user " ++ u) := by
    rw [ownershipError, hfind]
    simp [hbeq]
  refine ⟨?_, ?_, ?_, ?_, ?_⟩
  · rw [Memory.updateFact, if_neg (by simp [hie]), herr]
  · rw [Memory.invalidateFact, if_neg (by simp [hie]), herr]
  · rw [Memory.deleteFact, if_neg (by simp [hie]), herr]
  · intro store2 hnone
    have herr2 : ownershipError id u store2 = some ("Fact " ++ id ++ " not found") := by
      rw [ownershipError, hnone]
    refine ⟨?_, ?_, ?_⟩
    · rw [Memory.updateFact, if_neg (by simp [hie]), herr2]
    · rw [Memory.invalidateFact, if_neg (by simp [hie]), herr2]
    · rw [Memory.deleteFact, if_neg (by simp [hie]), herr2]
  · intro h
    have hl := congrArg String.length h
    simp only [String.length_append] at hl
    have h20 : (" not found for user ").length = 20 := by decide
    have h10 : (" not found").length = 10 := by decide
    rw [h20, h10] at hl
    omega

/-- C3 is false as stated: the wrong-owner failure and the missing-id failure
are distinguishable — the first message names the user and is strictly
longer, disclosing that the fact exists. -/
theorem ownership_mismatch_distinguishable :
    Memory.updateFact "f1" none none (some "alice") [bobOwnedFact]
      = .error "Fact f1 not found for user alice"
    ∧ Memory.updateFact "f1" none none (some "alice") []
      = .error "Fact f1 not found"
    ∧ "Fact f1 not found for user alice" ≠ "Fact f1 not found" :=
  ⟨rfl, rfl, by decide⟩

/-- Witness for the amended C3 theorem at a concrete input. -/
theorem ownership_mismatch_fails_witness :
    Memory.invalidateFact "f1" 5 (some "alice") [bobOwnedFact]
      = .error ("Fact " ++ "f1" ++ " not found for user " ++ "alice") :=
  (ownership_mismatch_fails [bobOwnedFact] "f1" "alice" none none 5 bobOwnedFact
      (by decide) rfl (by decide)).2.1

/-- C4 (amended): a fact passing the subject/predicate/confidence/user filters
is returned by query_facts_in_range exactly when the range condition of the code
holds; that condition coincides with the claimed union (interval overlap OR
valid_from inside) when both bounds are provided, when only `to` is provided,
and when neither is — but with only `from` provided the code keeps exactly the
facts with from <= valid_from, omitting facts whose validity began earlier yet
overlaps [from, +infinity). -/
theorem in_range_mem_characterization (subject predicate : Option String)
    (fromT toT : Option Int) (minc : ℚ) (user_id : Option String)
    (store : List TemporalFact) (f : TemporalFact) :
    (f ∈ query_facts_in_range subject predicate fromT toT minc user_id store ↔
      f ∈ store
      ∧ rangeTimeCond fromT toT f = true
      ∧ userParamMatch user_id f.user_id = true
      ∧ strParamMatch subject f.subject = true
      ∧ strParamMatch predicate f.predicate = true
      ∧ (0 < minc → minc ≤ f.confidence))
    ∧ (∀ lo hi : Int, ∀ g : TemporalFact,
        rangeTimeCond (some lo) (some hi) g = specRangeCond (some lo) (some hi) g)
    ∧ (∀ hi : Int, ∀ g : TemporalFact,
        rangeTimeCond none (some hi) g = specRangeCond none (some hi) g)
    ∧ (∀ g : TemporalFact, rangeTimeCond none none g = specRangeCond none none g)
    ∧ (∀ lo : Int, ∀ g : TemporalFact,
        rangeTimeCond (some lo) none g = decide (lo ≤ g.valid_from)) := by
  refine ⟨?_, ?_, ?_, ?_, ?_⟩
  · rw [query_facts_in_range, mem_sortFilter]
    simp only [Bool.and_eq_true, confCond_iff, and_assoc]
  · intro lo hi g
    cases hvt : g.valid_to <;> simp [rangeTimeCond, specRangeCond, hvt]
  · intro hi g
    cases hvt : g.valid_to <;> simp [rangeTimeCond, specRangeCond, hvt]
  · intro g
    cases hvt : g.valid_to <;> simp [rangeTimeCond, specRangeCond, hvt]
  · intro lo g
    rfl

/-- C4 is false as stated: with only `from` provided (from = 10), the fact
valid on [0, 20] overlaps [10, +infinity) — the claimed union predicate holds —
yet the from-only branch of the code (valid_from >= from) excludes it. -/
theorem in_range_from_only_misses_overlap :
    specRangeCond (some 10) none overlapFact = true
    ∧ query_facts_in_range none none (some 10) none 0 none [overlapFact] = [] :=
  ⟨rfl, rfl⟩

/-- Witness for the amended C4 theorem at a concrete input. -/
theorem in_range_mem_characterization_witness :
    overlapFact ∈ query_facts_in_range none none (some 0) (some 10) 0 none [overlapFact] :=
  (in_range_mem_characterization none none (some 0) (some 10) 0 none [overlapFact]
      overlapFact).1.mpr
    ⟨by decide, by decide, by decide, by decide, by decide, fun h => by decide⟩

/-- C5: for every store, instant t, and common choice of subject, predicate,
object pattern, user scope and confidence threshold, every fact returned by
the as-of query at t is also returned by the range query with from = to = t. -/
theorem as_of_subset_in_range (subject predicate object : Option String)
    (t : Int) (minc : ℚ) (user_id : Option String) (store : List TemporalFact)
    (f : TemporalFact)
    (hf : f ∈ query_facts_at_time subject predicate object t minc user_id store) :
    f ∈ query_facts_in_range subject predicate (some t) (some t) minc user_id store := by
  rw [query_facts_at_time, mem_sortFilter] at hf
  rw [query_facts_in_range, mem_sortFilter]
  obtain ⟨hmem, hp⟩ := hf
  simp only [Bool.and_eq_true] at hp
  obtain ⟨⟨⟨⟨⟨hasof, huser⟩, hsubj⟩, hpred⟩, hobj⟩, hconf⟩ := hp
  refine ⟨hmem, ?_⟩
  simp only [Bool.and_eq_true]
  refine ⟨⟨⟨⟨?_, huser⟩, hsubj⟩, hpred⟩, hconf⟩
  rw [asOfCond] at hasof
  rw [rangeTimeCond]
  simp only [Bool.and_eq_true, Bool.or_eq_true] at hasof ⊢
  exact Or.inl hasof

/-- Witness for C5 at a concrete input. -/
theorem as_of_subset_in_range_witness :
    boundaryFact ∈ query_facts_in_range none none (some 5) (some 5) 0 none [boundaryFact] :=
  as_of_subset_in_range none none none 5 0 none [boundaryFact] boundaryFact (by decide)

/-- C6 (amended): get_current_fact returns the open fact (valid_to null) with
matching subject and predicate (and user scope), choosing among candidates the
one with the greatest valid_from (limit 1), and returns null exactly when no
such fact exists. It applies no valid_from <= now condition, so an open fact
whose valid_from lies in the future is still returned as current. -/
theorem get_current_fact_characterization (s p : String) (u : Option String)
    (store : List TemporalFact) :
    (∀ f, get_current_fact s p u store = some f →
        f ∈ store ∧ f.subject = s ∧ f.predicate = p ∧ f.valid_to = none
        ∧ userParamMatch u f.user_id = true
        ∧ ∀ g ∈ store, g.subject = s → g.predicate = p → g.valid_to = none →
            userParamMatch u g.user_id = true → g.valid_from ≤ f.valid_from)
    ∧ (get_current_fact s p u store = none →
        ∀ g ∈ store, ¬(g.subject = s ∧ g.predicate = p ∧ g.valid_to = none
          ∧ userParamMatch u g.user_id = true)) := by
  constructor
  · intro f hf
    have hmem := mem_of_head?_eq_some hf
    have hl := hmem
    rw [mem_sortFilter] at hl
    obtain ⟨hst, hp2⟩ := hl
    simp only [Bool.and_eq_true, beq_iff_eq] at hp2
    obtain ⟨⟨⟨hs2, hpr⟩, hvt⟩, hup⟩ := hp2
    refine ⟨hst, hs2, hpr, hvt, hup, ?_⟩
    intro g hg hgs hgp hgvt hgu
    rw [get_current_fact] at hf
    have hsorted := List.sorted_insertionSort vfDesc
      (store.filter (fun f =>
        f.subject == s && f.predicate == p && f.valid_to == none
          && userParamMatch u f.user_id))
    set m := (store.filter (fun f =>
        f.subject == s && f.predicate == p && f.valid_to == none
          && userParamMatch u f.user_id)).insertionSort vfDesc with hm
    have hgm : g ∈ m := by
      rw [hm, mem_sortFilter]
      refine ⟨hg, ?_⟩
      simp only [Bool.and_eq_true, beq_iff_eq]
      exact ⟨⟨⟨hgs, hgp⟩, hgvt⟩, hgu⟩
    cases hcases : m with
    | nil => rw [hcases] at hgm; simp at hgm
    | cons b tl =>
        have hb : b = f := by
          rw [hcases] at hf
          simpa using hf
        rw [hcases] at hsorted hgm
        rw [List.sorted_cons] at hsorted
        rcases List.mem_cons.mp hgm with hgb | hgtl
        · rw [hb] at hgb
          exact hgb ▸ le_refl _
        · have := hsorted.1 g hgtl
          rw [hb] at this
          exact this
  · intro hf g hg hcond
    rw [get_current_fact, List.head?_eq_none_iff] at hf
    have hgm : g ∈ ([] : List TemporalFact) := by
      rw [← hf, mem_sortFilter]
      refine ⟨hg, ?_⟩
      simp only [Bool.and_eq_true, beq_iff_eq]
      exact ⟨⟨⟨hcond.1, hcond.2.1⟩, hcond.2.2.1⟩, hcond.2.2.2⟩
    simp at hgm

/-- C6 is false as stated: the open fact with valid_from = 100 is returned as
current even relative to "now" = 0, because the query has no valid_from bound. -/
theorem get_current_returns_future_fact :
    get_current_fact "s" "p" none [futureFact] = some futureFact
    ∧ (0 : Int) < futureFact.valid_from :=
  ⟨rfl, by decide⟩

/-- Witness for the amended C6 theorem at a concrete input. -/
theorem get_current_fact_characterization_witness :
    futureFact ∈ [futureFact] ∧ futureFact.subject = "s" :=
  let h := (get_current_fact_characterization "s" "p" none [futureFact]).1
    futureFact rfl
  ⟨h.1, h.2.1⟩

/-- C7 (amended): search_facts returns at most 100 facts, ordered by
(confidence desc, valid_from desc), and — whenever the store is small enough
that the LIMIT does not cut — returns exactly the facts whose chosen field
matches the SQL LIKE pattern '%pattern%' (so '%' and '_' inside the pattern
act as wildcards, not literals; a pattern without wildcard characters matches
as a case-sensitive literal substring) and that are active at t under the
closed as-of interval, for the given user scope. -/
theorem search_facts_characterization (pat : String) (field : SearchField)
    (t : Int) (u : Option String) (store : List TemporalFact)
    (hlen : store.length ≤ 100) :
    (search_facts pat field t u store).length ≤ 100
    ∧ List.Sorted confVfDesc (search_facts pat field t u store)
    ∧ (∀ f, f ∈ search_facts pat field t u store ↔
        f ∈ store
        ∧ likeMatch ('%' :: (pat.toList ++ ['%'])) (fieldOf field f).toList = true
        ∧ f.valid_from ≤ t
        ∧ (∀ vt, f.valid_to = some vt → t ≤ vt)
        ∧ userParamMatch u f.user_id = true) := by
  refine ⟨?_, ?_, ?_⟩
  · rw [search_facts]
    exact List.length_take_le _ _
  · rw [search_facts]
    exact List.Pairwise.sublist (List.take_sublist _ _) (List.sorted_insertionSort _ _)
  · intro f
    have hlen2 : ((store.filter (fun f =>
        likeMatch ('%' :: (pat.toList ++ ['%'])) (fieldOf field f).toList
        && asOfCond t f
        && userParamMatch u f.user_id)).insertionSort confVfDesc).length ≤ 100 := by
      rw [(List.perm_insertionSort _ _).length_eq]
      exact le_trans (List.length_filter_le _ _) hlen
    rw [search_facts, List.take_of_length_le hlen2, mem_sortFilter]
    simp only [Bool.and_eq_true, asOfCond_iff, and_assoc]

/-- C7 is false as stated: the pattern "_" contains no literal occurrence in
the subject "Z", yet search_facts returns the fact because '_' is a LIKE
wildcard matching any single character. -/
theorem search_facts_underscore_wildcard :
    search_facts "_" SearchField.subject 0 none [zFact] = [zFact]
    ∧ ¬ ("_".toList <:+: "Z".toList) := by
  constructor
  · have hlike : likeMatch ['%', '_', '%'] ['Z'] = true := by
      simp [likeMatch]
    rw [search_facts]
    simp [zFact, fieldOf, asOfCond, userParamMatch, hlike, List.insertionSort,
      List.filter_cons]
  · decide

/-- Witness for the amended C7 theorem at a concrete input. -/
theorem search_facts_characterization_witness :
    zFact ∈ search_facts "Z" SearchField.subject 0 none [zFact] :=
  ((search_facts_characterization "Z" SearchField.subject 0 none [zFact]
      (by decide)).2.2 zFact).mpr
    ⟨by decide, by simp [likeMatch, zFact, fieldOf], by decide,
     fun vt h => by simp [zFact] at h, by decide⟩

/-- C8 (amended): with a (non-empty) user id, searchSimilar filters by
(sector, user) inside the SQL WHERE clause, before the LIMIT — there is no
over-fetch factor — so it returns exactly min(k, number of matching rows)
entries, every returned row belongs to the requesting user and sector, and
each returned score is 1 - (v <=> query), i.e. the cosine similarity of the
stored vector with the query. -/
theorem searchSimilar_prefilter_limit (table : List VectorRow) (sector : String)
    (q : List ℚ) (k : Nat) (u : String) (hu : u ≠ "") :
    (searchSimilarRows table sector q k (some u)).length
      = min k ((table.filter (fun r => r.sector == sector && r.user_id == u)).length)
    ∧ (∀ r ∈ searchSimilarRows table sector q k (some u),
        r.user_id = u ∧ r.sector = sector)
    ∧ searchSimilar table sector q k (some u)
      = (searchSimilarRows table sector q k (some u)).map
          (fun r => (r.id, cosineSimilarity r.v q)) := by
  have hopt : optProvided (some u) = true := by
    simp [optProvided, isEmpty_false_of_ne hu]
  refine ⟨?_, ?_, ?_⟩
  · rw [searchSimilarRows, if_pos hopt]
    rw [List.length_take, (List.perm_insertionSort _ _).length_eq]
    simp [inf_eq_min, Option.getD]
  · intro r hr
    rw [searchSimilarRows, if_pos hopt] at hr
    have hm := List.mem_of_mem_take hr
    rw [(List.perm_insertionSort _ _).mem_iff, List.mem_filter] at hm
    obtain ⟨-, hp⟩ := hm
    simp only [Option.getD, Bool.and_eq_true, beq_iff_eq] at hp
    exact ⟨hp.2, hp.1⟩
  · simp only [searchSimilar, cosineDistance, sub_sub_cancel]

/-- C8 is false as stated: the code pre-filters by user inside the query, so
the lone (far) alice row is returned; the spec-described over-fetch of
k * F = 3 global neighbors followed by the user post-filter would return
nothing because the three nearest rows belong to bob. -/
theorem searchSimilar_no_overfetch :
    searchSimilarOverfetchRows c8Table "s" [1] 1 3 (some "alice") = []
    ∧ searchSimilarRows c8Table "s" [1] 1 (some "alice") = [rowA1] := by
  have h31 : distLe [1] rowB3 rowA1 := by
    simp only [distLe, rowB3, rowA1]
    norm_num [dotQ, simGe]
  have h23 : distLe [1] rowB2 rowB3 := by
    simp only [distLe, rowB2, rowB3]
    norm_num [dotQ, simGe]
  have h12 : distLe [1] rowB1 rowB2 := by
    simp only [distLe, rowB1, rowB2]
    norm_num [dotQ, simGe]
  have hsorted : c8Table.insertionSort (distLe [1]) = [rowB1, rowB2, rowB3, rowA1] := by
    simp [c8Table, List.insertionSort, List.orderedInsert, h31, h23, h12]
  constructor
  · simp only [searchSimilarOverfetchRows]
    rw [hsorted]
    decide
  · rfl

/-- Witness for the amended C8 theorem at a concrete input. -/
theorem searchSimilar_prefilter_limit_witness :
    (searchSimilarRows c8Table "s" [1] 1 (some "alice")).length
      = min 1 ((c8Table.filter (fun r => r.sector == "s" && r.user_id == "alice")).length) :=
  (searchSimilar_prefilter_limit c8Table "s" [1] 1 "alice" (by decide)).1

theorem mem_insert_fact {newId subject predicate object : String} {vf : Int}
    {conf : ℚ} {meta : List (String × String)} {uid : Option String}
    {store : List TemporalFact} {f : TemporalFact}
    (h : f ∈ insert_fact newId subject predicate object vf conf meta uid store) :
    (∃ g ∈ store, f.id = g.id ∧ f.metadata = g.metadata)
    ∨ (f.id = newId ∧ f.metadata = meta) := by
  rw [insert_fact, List.mem_append] at h
  rcases h with h | h
  · rw [List.mem_map] at h
    obtain ⟨g, hg, hfg⟩ := h
    left
    refine ⟨g, hg, ?_⟩
    by_cases hc : (g.user_id == uid && g.subject == subject
        && g.predicate == predicate && g.valid_to == none) = true
    · rw [if_pos hc] at hfg
      rw [← hfg]
      exact ⟨rfl, rfl⟩
    · rw [if_neg hc] at hfg
      rw [← hfg]
      exact ⟨rfl, rfl⟩
  · right
    simp only [List.mem_singleton] at h
    rw [h]
    exact ⟨rfl, rfl⟩

theorem mem_batch_insert {ids : List String} {facts : List FactInput}
    {store : List TemporalFact} {f : TemporalFact}
    (h : f ∈ batch_insert_facts ids facts store) :
    (∃ g ∈ store, f.id = g.id ∧ f.metadata = g.metadata)
    ∨ ∃ fi ∈ facts, f.metadata = fi.metadata := by
  induction ids generalizing facts store with
  | nil =>
      left
      cases facts with
      | nil => exact ⟨f, h, rfl, rfl⟩
      | cons f0 fs => exact ⟨f, h, rfl, rfl⟩
  | cons i ids ih =>
      cases facts with
      | nil =>
          left
          exact ⟨f, h, rfl, rfl⟩
      | cons f0 fs =>
          rcases ih h with ⟨g, hg, hid, hmeta⟩ | ⟨fi, hfi, hmeta⟩
          · rcases mem_insert_fact hg with ⟨g2, hg2, hid2, hmeta2⟩ | ⟨hidn, hmetan⟩
            · exact Or.inl ⟨g2, hg2, hid.trans hid2, hmeta.trans hmeta2⟩
            · exact Or.inr ⟨f0, List.mem_cons_self _ _, hmeta.trans hmetan⟩
          · exact Or.inr ⟨fi, List.mem_cons_of_mem _ hfi, hmeta⟩

theorem lookupKey_setKey (k v : String) (meta : List (String × String)) :
    lookupKey k (setKey k v meta) = some v := by
  simp [lookupKey, setKey]

/-- C9: store with type both performs the HSG insert (the new memory row is in
the resulting HSG table) and every temporal fact row it adds carries metadata
whose source_memory_id is the new HSG memory id (pre-existing rows keep their
id and metadata); with type factual the HSG table is untouched and — provided
the caller metadata has no source_memory_id key — no added fact carries one. -/
theorem store_both_cross_links
    (content : String) (factSpecs : List StoreFactSpec)
    (tags : List String) (metadata : List (String × String))
    (uid : Option String) (now : Int) (newMemId primary : String)
    (secondary : List String) (factIds : List String) (st : SystemState)
    (st2 st3 : SystemState) (hid2 hid3 : Option String)
    (hc : content ≠ "")
    (hmeta : lookupKey "source_memory_id" metadata = none)
    (hboth : Memory.store content .both factSpecs tags metadata uid now newMemId
        primary secondary factIds st = .ok (st2, hid2))
    (hfact : Memory.store content .factual factSpecs tags metadata uid now newMemId
        primary secondary factIds st = .ok (st3, hid3)) :
    hid2 = some newMemId
    ∧ (∃ m ∈ st2.hsg, m.id = newMemId)
    ∧ (∀ f ∈ st2.facts,
        (∃ g ∈ st.facts, f.id = g.id ∧ f.metadata = g.metadata)
        ∨ lookupKey "source_memory_id" f.metadata = some newMemId)
    ∧ hid3 = none
    ∧ st3.hsg = st.hsg
    ∧ (∀ f ∈ st3.facts,
        (∃ g ∈ st.facts, f.id = g.id ∧ f.metadata = g.metadata)
        ∨ lookupKey "source_memory_id" f.metadata = none) := by
  have hie : content.isEmpty = false := isEmpty_false_of_ne hc
  rw [Memory.store] at hboth
  rw [if_neg (by simp)] at hboth
  rw [if_neg (by simp [hie])] at hboth
  simp only [show (StoreType.both == StoreType.contextual || StoreType.both == StoreType.both)
      = true from rfl,
    show (StoreType.both == StoreType.factual || StoreType.both == StoreType.both)
      = true from rfl,
    if_pos, Except.ok.injEq, Prod.mk.injEq] at hboth
  obtain ⟨hst2, hhid2⟩ := hboth
  rw [Memory.store] at hfact
  by_cases hempty : factSpecs.isEmpty
  · rw [if_pos (by simp [hempty])] at hfact
    exact absurd hfact (by simp)
  · rw [if_neg (by simp [hempty])] at hfact
    rw [if_neg (by simp)] at hfact
    simp only [show (StoreType.factual == StoreType.contextual
        || StoreType.factual == StoreType.both) = false from rfl,
      show (StoreType.factual == StoreType.factual
        || StoreType.factual == StoreType.both) = true from rfl,
      if_pos, if_neg, Bool.false_eq_true, Except.ok.injEq, Prod.mk.injEq,
      reduceCtorEq] at hfact
    obtain ⟨hst3, hhid3⟩ := hfact
    simp only [if_false] at hst3 hhid3
    refine ⟨hhid2.symm, ?_, ?_, hhid3.symm, ?_, ?_⟩
    · rw [← hst2]
      exact ⟨_, List.mem_append_right _ (List.mem_singleton_self _), rfl⟩
    · intro f hf
      rw [← hst2] at hf
      rcases mem_batch_insert hf with hold | ⟨fi, hfi, hmeta2⟩
      · exact Or.inl hold
      · right
        rw [List.mem_map] at hfi
        obtain ⟨fs0, -, hfs0⟩ := hfi
        rw [hmeta2, ← hfs0]
        exact lookupKey_setKey _ _ _
    · rw [← hst3]
    · intro f hf
      rw [← hst3] at hf
      rcases mem_batch_insert hf with hold | ⟨fi, hfi, hmeta2⟩
      · exact Or.inl hold
      · right
        rw [List.mem_map] at hfi
        obtain ⟨fs0, -, hfs0⟩ := hfi
        rw [hmeta2, ← hfs0]
        exact hmeta

/-- Witness for C9 at a concrete input: the single fact inserted by a
type-both store carries source_memory_id = the new HSG memory id. -/

theorem store_both_cross_links_witness :
    lookupKey "source_memory_id" [("source_memory_id", "m1")] = some "m1" :=
  Or.resolve_left
    ((store_both_cross_links "c"
        [ { subject := "s", predicate := "p", object := "o",
            confidence := none, valid_from := none } ]
        [] [] none 0 "m1" "semantic" ["semantic"] ["t1"]
        { hsg := [], facts := [] }
        { hsg :=
            [ { id := "m1", user_id := none, content := "c",
                primary_sector := "semantic", sectors := ["semantic"],
                tags := [], metadata := [] } ],
          facts :=
            [ { id := "t1", subject := "s", predicate := "p", object := "o",
                valid_from := 0, valid_to := none, confidence := 1,
                last_updated := 0, user_id := none,
                metadata := [("source_memory_id", "m1")] } ] }
        { hsg := [],
          facts :=
            [ { id := "t1", subject := "s", predicate := "p", object := "o",
                valid_from := 0, valid_to := none, confidence := 1,
                last_updated := 0, user_id := none, metadata := [] } ] }
        (some "m1") none (by decide) rfl rfl rfl).2.2.1
      { id := "t1", subject := "s", predicate := "p", object := "o",
        valid_from := 0, valid_to := none, confidence := 1, last_updated := 0,
        user_id := none, metadata := [("source_memory_id", "m1")] }
      (by decide))
    (by simp)

/-- C10: with both a user id and a sector, Memory.list draws the limit/offset
page from all memories of the user and only then filters by primary sector —
concretely, with limit 1 the call below returns no rows even though a further
memory of that user with the requested sector exists outside the fetched page —
while without a user id the sector filter is applied inside the paged query, so
every row of the page matches the sector and the page respects the limit; the
user-scoped call is literally the user page post-filtered by sector. -/
theorem list_pages_before_sector_filter :
    Memory.list (some "alice") 1 0 (some "episodic") c10Store = []
    ∧ memRowEpi ∈ c10Store
    ∧ memRowEpi.user_id = some "alice"
    ∧ memRowEpi.primary_sector = "episodic"
    ∧ (∀ (hsg : List MemRow) (limit offset : Nat) (s : String), s ≠ "" →
        (∀ m ∈ Memory.list none limit offset (some s) hsg, m.primary_sector = s)
        ∧ (Memory.list none limit offset (some s) hsg).length ≤ limit)
    ∧ (∀ (hsg : List MemRow) (limit offset : Nat) (u s : String), u ≠ "" → s ≠ "" →
        Memory.list (some u) limit offset (some s) hsg
          = (all_mem_by_user u limit offset hsg).filter
              (fun m => m.primary_sector == s)) := by
  refine ⟨by decide, by decide, by decide, by decide, ?_, ?_⟩
  · intro hsg limit offset s hs
    have hopt : optProvided (some s) = true := by
      simp [optProvided, isEmpty_false_of_ne hs]
    constructor
    · intro m hm
      rw [Memory.list] at hm
      rw [if_neg (by simp [optProvided])] at hm
      rw [if_pos hopt] at hm
      rw [all_mem_by_sector] at hm
      have hm2 := List.mem_of_mem_drop (List.mem_of_mem_take hm)
      rw [List.mem_filter] at hm2
      simpa using hm2.2
    · rw [Memory.list]
      rw [if_neg (by simp [optProvided])]
      rw [if_pos hopt]
      exact List.length_take_le _ _
  · intro hsg limit offset u s hu hs
    rw [Memory.list]
    rw [if_pos (by simp [optProvided, isEmpty_false_of_ne hu])]
    rw [if_pos (by simp [optProvided, isEmpty_false_of_ne hs])]
    rfl

/-- Witness for C10 at a concrete input. -/
theorem list_pages_before_sector_filter_witness :
    Memory.list (some "alice") 2 0 (some "episodic") c10Store
      = (all_mem_by_user "alice" 2 0 c10Store).filter
          (fun m => m.primary_sector == "episodic") :=
  (list_pages_before_sector_filter).2.2.2.2.2 c10Store 2 0 "alice" "episodic"
    (by decide) (by decide)
